import Mathlib

/-!
Verification development for the Scripter cancellable asynchronous task model
(`src/common/scripter-env.d.ts`): cancellable promises, timers, the
`withTimeout` race combinator, the `animate` frame driver and the worker
message channel.  The repository file under `src/` is a TypeScript
declaration file, so the API shapes (names, option fields, sentinel string
types) are embedded directly from it, while the runtime behaviour of the
declared operations is modelled from the design specification, as marked on
each definition.
-/

namespace Scripter

/-- Embedding of the JavaScript values exchanged by the environment: the
claims only need strings, integers, booleans and `undefined`. -/
inductive JSVal where
  | str (s : String)
  | num (n : Int)
  | boolean (b : Bool)
  | undef
  deriving Repr, DecidableEq

/-- Errors carried by rejected tasks.  `timerCancellation` embeds the
declared class `TimerCancellation extends Error` of scripter-env.d.ts. -/
inductive Err where
  | timerCancellation
  | workerFault (message : String)
  | other (message : String)
  deriving Repr, DecidableEq

/-- The declared `name` field of each error class; `TimerCancellation` is
declared in scripter-env.d.ts with `readonly name : "TimerCancellation"`. -/
def Err.name : Err → String
  | .timerCancellation => "TimerCancellation"
  | .workerFault _ => "WorkerFault"
  | .other _ => "Error"

/-- States of a cancellable task, as in the spec data model:
Pending, Fulfilled(T), Rejected(Error), Cancelled. -/
inductive TaskState (T : Type) where
  | pending
  | fulfilled (v : T)
  | rejected (e : Err)
  | cancelled
  deriving Repr, DecidableEq

/-- True exactly on the pending (not yet settled) state. -/
def TaskState.isPending {T : Type} : TaskState T → Bool
  | .pending => true
  | _ => false

/-- A settled outcome: fulfilled with a value or rejected with an error. -/
inductive Outcome (T : Type) where
  | fulfilled (v : T)
  | rejected (e : Err)
  deriving Repr, DecidableEq

/-- The task state corresponding to a settled outcome. -/
def outcomeState {T : Type} : Outcome T → TaskState T
  | .fulfilled v => .fulfilled v
  | .rejected e => .rejected e

/-- Modelled from the spec: the state of a promise built by
`createCancellablePromise` (declared in scripter-env.d.ts without an
implementation under src/).  Cancellation hooks are opaque effects, so they
are tracked by numeric id: `hooks` lists the ids registered via `oncancel`
in registration order, and `ranHooks` logs, in run order, the hooks that
have been invoked. -/
structure CancellablePromise (T : Type) where
  state : TaskState T
  hooks : List Nat
  ranHooks : List Nat
  deriving Repr, DecidableEq

namespace CancellablePromise

variable {T : Type}

/-- Modelled from the spec: `resolve` settles the task exactly once;
subsequent calls are ignored. -/
def resolve (t : CancellablePromise T) (v : T) : CancellablePromise T :=
  match t.state with
  | .pending => { t with state := .fulfilled v }
  | _ => t

/-- Modelled from the spec: `reject` settles the task exactly once;
subsequent calls are ignored. -/
def reject (t : CancellablePromise T) (e : Err) : CancellablePromise T :=
  match t.state with
  | .pending => { t with state := .rejected e }
  | _ => t

/-- Settle with a given outcome (resolve or reject). -/
def settle (t : CancellablePromise T) : Outcome T → CancellablePromise T
  | .fulfilled v => t.resolve v
  | .rejected e => t.reject e

/-- Modelled from the spec: `oncancel(f)` registers a cancellation hook;
registration is only possible before settlement. -/
def oncancel (t : CancellablePromise T) (f : Nat) : CancellablePromise T :=
  match t.state with
  | .pending => { t with hooks := t.hooks ++ [f] }
  | _ => t

/-- Register a whole list of hooks, in order, via `oncancel`. -/
def registerAll (t : CancellablePromise T) (fs : List Nat) : CancellablePromise T :=
  fs.foldl oncancel t

/-- Modelled from the spec: `cancel()` on a pending task runs every
registered hook, in registration order, synchronously, then transitions the
task to Rejected with a `TimerCancellation`-kind error; on a settled task it
is a no-op. -/
def cancel (t : CancellablePromise T) : CancellablePromise T :=
  match t.state with
  | .pending =>
      { t with
        state := .rejected .timerCancellation
        ranHooks := t.ranHooks ++ t.hooks }
  | _ => t

/-- A fresh pending task with no hooks registered and none run. -/
def fresh : CancellablePromise T := ⟨.pending, [], []⟩

theorem cancel_of_settled (t : CancellablePromise T)
    (h : t.state.isPending = false) : t.cancel = t := by
  cases t with
  | mk s hs rs =>
      cases s <;> simp_all [cancel, TaskState.isPending]

theorem state_cancel_of_pending (t : CancellablePromise T)
    (h : t.state = .pending) :
    t.cancel.state = .rejected .timerCancellation := by
  simp [cancel, h]

theorem cancel_cancel (t : CancellablePromise T) :
    t.cancel.cancel = t.cancel := by
  cases t with
  | mk s hs rs => cases s <;> rfl

theorem registerAll_of_pending (fs : List Nat) :
    ∀ t : CancellablePromise T, t.state = .pending →
      (t.registerAll fs).state = .pending ∧
      (t.registerAll fs).hooks = t.hooks ++ fs ∧
      (t.registerAll fs).ranHooks = t.ranHooks := by
  induction fs with
  | nil => intro t ht; simp [registerAll, ht]
  | cons f fs ih =>
      intro t ht
      have hstep : t.oncancel f = { t with hooks := t.hooks ++ [f] } := by
        simp [oncancel, ht]
      have h2 := ih (t.oncancel f) (by simp [hstep, ht])
      simpa [registerAll, hstep, List.append_assoc] using h2

end CancellablePromise

/-- C2: for every cancellable task, calling `cancel()` twice has the same
observable effect on the task state as calling it once, and calling
`cancel()` on an already settled task (fulfilled, rejected or cancelled) is
a no-op that leaves the task unchanged. -/
theorem cancel_idempotent_and_noop {T : Type} (t : CancellablePromise T) :
    t.cancel.cancel = t.cancel ∧
    (t.state.isPending = false → t.cancel = t) :=
  ⟨t.cancel_cancel, t.cancel_of_settled⟩

/-- Witness for C2 at a concrete settled task. -/
theorem cancel_idempotent_and_noop_witness :
    (CancellablePromise.mk (T := JSVal) (.fulfilled (.num 3)) [] []).cancel.cancel
      = (CancellablePromise.mk (T := JSVal) (.fulfilled (.num 3)) [] []).cancel ∧
    (CancellablePromise.mk (T := JSVal) (.fulfilled (.num 3)) [] []).cancel
      = CancellablePromise.mk (T := JSVal) (.fulfilled (.num 3)) [] [] :=
  ⟨(cancel_idempotent_and_noop _).1, (cancel_idempotent_and_noop _).2 rfl⟩

/-- C3: on a pending task with hooks registered through `oncancel`,
`cancel()` runs the hooks exactly once, in registration order (a second
`cancel()` runs nothing further), and the task transitions to Rejected with
the `TimerCancellation`-kind error, whose declared `name` is the string
"TimerCancellation". -/
theorem cancel_runs_hooks_in_order {T : Type} (t : CancellablePromise T)
    (fs : List Nat) (h : t.state = .pending) :
    (t.registerAll fs).cancel.ranHooks = t.ranHooks ++ (t.hooks ++ fs) ∧
    (t.registerAll fs).cancel.state = .rejected .timerCancellation ∧
    (t.registerAll fs).cancel.cancel.ranHooks = (t.registerAll fs).cancel.ranHooks ∧
    Err.name .timerCancellation = "TimerCancellation" := by
  obtain ⟨hp, hh, hr⟩ := CancellablePromise.registerAll_of_pending fs t h
  refine ⟨?_, ?_, ?_, rfl⟩
  · simp [CancellablePromise.cancel, hp, hh, hr]
  · exact CancellablePromise.state_cancel_of_pending _ hp
  · rw [CancellablePromise.cancel_cancel]

/-- Witness for C3: a fresh task with hooks 1 and 2 registered, cancelled. -/
theorem cancel_runs_hooks_in_order_witness :
    ((CancellablePromise.fresh (T := JSVal)).registerAll [1, 2]).cancel.ranHooks
      = (CancellablePromise.fresh (T := JSVal)).ranHooks
        ++ ((CancellablePromise.fresh (T := JSVal)).hooks ++ [1, 2]) ∧
    ((CancellablePromise.fresh (T := JSVal)).registerAll [1, 2]).cancel.state
      = .rejected .timerCancellation ∧
    ((CancellablePromise.fresh (T := JSVal)).registerAll [1, 2]).cancel.cancel.ranHooks
      = ((CancellablePromise.fresh (T := JSVal)).registerAll [1, 2]).cancel.ranHooks ∧
    Err.name .timerCancellation = "TimerCancellation" :=
  cancel_runs_hooks_in_order CancellablePromise.fresh [1, 2] rfl

/-- Modelled from the spec: a task derived by `then(onfulfilled)` from a
source task.  The declaration in scripter-env.d.ts types `then` on a
`Timer` as returning a `Timer` again, i.e. a cancellable task; the runtime
forwarding of `cancel()` to the source is modelled here. -/
structure ChainedTask (T R : Type) where
  source : CancellablePromise T
  onFulfilled : T → R

/-- Modelled from the spec: a task derived by `catch(onrejected)` from a
source task. -/
structure CatchTask (T : Type) where
  source : CancellablePromise T
  onRejected : Err → T

/-- The observable state of a `then`-derived task, computed from its
source: fulfillment is mapped through the handler, rejection and
cancellation pass through. -/
def ChainedTask.state {T R : Type} (c : ChainedTask T R) : TaskState R :=
  match c.source.state with
  | .pending => .pending
  | .fulfilled v => .fulfilled (c.onFulfilled v)
  | .rejected e => .rejected e
  | .cancelled => .cancelled

/-- The observable state of a `catch`-derived task: rejection is mapped
through the handler to a fulfillment. -/
def CatchTask.state {T : Type} (k : CatchTask T) : TaskState T :=
  match k.source.state with
  | .pending => .pending
  | .fulfilled v => .fulfilled v
  | .rejected e => .fulfilled (k.onRejected e)
  | .cancelled => .cancelled

/-- Modelled from the spec: `cancel()` on a `then`-derived task forwards
the cancellation to the source task. -/
def ChainedTask.cancel {T R : Type} (c : ChainedTask T R) : ChainedTask T R :=
  { c with source := c.source.cancel }

/-- Modelled from the spec: `cancel()` on a `catch`-derived task forwards
the cancellation to the source task. -/
def CatchTask.cancel {T : Type} (k : CatchTask T) : CatchTask T :=
  { k with source := k.source.cancel }

/-- C4: tasks derived by `then` or `catch` from a cancellable task are
themselves cancellable, and their `cancel()` forwards to the source task:
the source ends up exactly as if cancelled directly; in particular a
pending `then`-derived task observes the cancellation as the
`TimerCancellation` rejection, and a pending `catch`-derived task observes
it through its rejection handler. -/
theorem derived_cancel_forwards {T R : Type} (c : ChainedTask T R)
    (k : CatchTask T) (hc : c.source.state = .pending)
    (hk : k.source.state = .pending) :
    c.cancel.source = c.source.cancel ∧
    k.cancel.source = k.source.cancel ∧
    c.cancel.state = .rejected .timerCancellation ∧
    k.cancel.state = .fulfilled (k.onRejected .timerCancellation) := by
  refine ⟨rfl, rfl, ?_, ?_⟩
  · simp [ChainedTask.cancel, ChainedTask.state,
      CancellablePromise.state_cancel_of_pending _ hc]
  · simp [CatchTask.cancel, CatchTask.state,
      CancellablePromise.state_cancel_of_pending _ hk]

/-- Witness for C4 at concrete pending derived tasks. -/
theorem derived_cancel_forwards_witness :
    (ChainedTask.mk (R := JSVal) (CancellablePromise.fresh (T := JSVal))
        (fun _ => JSVal.num 1)).cancel.source
      = (CancellablePromise.fresh (T := JSVal)).cancel ∧
    (CatchTask.mk (CancellablePromise.fresh (T := JSVal))
        (fun _ => JSVal.num 2)).cancel.source
      = (CancellablePromise.fresh (T := JSVal)).cancel ∧
    (ChainedTask.mk (R := JSVal) (CancellablePromise.fresh (T := JSVal))
        (fun _ => JSVal.num 1)).cancel.state = .rejected .timerCancellation ∧
    (CatchTask.mk (CancellablePromise.fresh (T := JSVal))
        (fun _ => JSVal.num 2)).cancel.state
      = .fulfilled ((fun _ => JSVal.num 2) Err.timerCancellation) :=
  derived_cancel_forwards _ _ rfl rfl

/-- Modelled from the spec: the state of a `Timer(duration, handler?)`.
It owns one underlying scheduling handle, released exactly once on expiry
or cancellation; `handlerRuns` counts invocations of the optional handler;
negative durations are treated as zero. -/
structure Timer where
  duration : Int
  handleReleased : Bool
  handlerRuns : Nat
  task : TaskState JSVal
  deriving Repr, DecidableEq

namespace Timer

/-- Modelled from the spec: `Timer(duration)` starts a pending timer
holding a live scheduling handle; a negative duration is clamped to 0. -/
def create (duration : Int) : Timer :=
  { duration := max duration 0
    handleReleased := false
    handlerRuns := 0
    task := .pending }

/-- Modelled from the spec: cancelling a pending timer releases the
scheduling handle and settles the task as cancelled without running the
handler; on a settled timer it is a no-op. -/
def cancel (t : Timer) : Timer :=
  match t.task with
  | .pending => { t with handleReleased := true, task := .cancelled }
  | _ => t

/-- Modelled from the spec: expiry of a pending timer releases the handle,
runs the handler once and fulfills the task; once the timer is settled the
expiry event does nothing (the handle was already released). -/
def expire (t : Timer) (result : JSVal) : Timer :=
  match t.task with
  | .pending =>
      { t with
        handleReleased := true
        handlerRuns := t.handlerRuns + 1
        task := .fulfilled result }
  | _ => t

end Timer

/-- C5: cancelling a `Timer(d, handler)` before its expiry releases the
underlying scheduling handle, settles the task as cancelled, and the
handler is never invoked — even the later arrival of the expiry event
leaves the cancelled timer unchanged. -/
theorem timer_cancel_before_expiry (d : Int) (v : JSVal) :
    ((Timer.create d).cancel).task = .cancelled ∧
    ((Timer.create d).cancel).handleReleased = true ∧
    ((Timer.create d).cancel).handlerRuns = 0 ∧
    ((Timer.create d).cancel).expire v = (Timer.create d).cancel := by
  refine ⟨rfl, rfl, rfl, rfl⟩

/-- The timeout sentinel: scripter-env.d.ts declares
`withTimeout(p, timeout) : CancellablePromise<R|"TIMEOUT">`, so the
sentinel is the in-band string literal "TIMEOUT". -/
def TIMEOUT_SENTINEL : JSVal := .str "TIMEOUT"

/-- The animation stop sentinel: scripter-env.d.ts declares the `animate`
callback as `f :(time :number) => void|"STOP"`, so the loop is ended by the
in-band string literal "STOP". -/
def STOP_SENTINEL : JSVal := .str "STOP"

/-- Joint result of the `withTimeout` race: the composite task state and
the final states of the two constituents. -/
structure RaceResult where
  composite : TaskState JSVal
  inner : CancellablePromise JSVal
  timer : Timer

/-- Modelled from the spec: `withTimeout(p, timeout)` races `p` against an
internal `Timer(timeout)`.  `p` is described by its (pending) task state
together with the time `pSettleTime` and outcome `pOutcome` it would settle
with on its own.  If `p` settles within the timeout, its outcome is
forwarded unchanged and the timer is cancelled; otherwise the timer expires
first, `p` is cancelled and the composite fulfills with the "TIMEOUT"
sentinel. -/
def withTimeout (p : CancellablePromise JSVal) (pSettleTime : Nat)
    (pOutcome : Outcome JSVal) (timeout : Nat) : RaceResult :=
  if pSettleTime ≤ timeout then
    { composite := outcomeState pOutcome
      inner := p.settle pOutcome
      timer := (Timer.create timeout).cancel }
  else
    { composite := .fulfilled TIMEOUT_SENTINEL
      inner := p.cancel
      timer := (Timer.create timeout).expire .undef }

/-- C1: in `withTimeout(p, t)`, if `p` settles strictly first its outcome
(fulfilled or rejected) is forwarded unchanged and the internal timer is
cancelled with its scheduling handle released and its handler never run;
if the timer expires strictly first, `p` is cancelled (a pending `p`
observes the `TimerCancellation` rejection) and the composite fulfills —
does not reject — with the "TIMEOUT" sentinel. -/
theorem withTimeout_race_spec (p : CancellablePromise JSVal) (s t : Nat)
    (o : Outcome JSVal) :
    (s < t →
      (withTimeout p s o t).composite = outcomeState o ∧
      (withTimeout p s o t).inner = p.settle o ∧
      (withTimeout p s o t).timer.task = .cancelled ∧
      (withTimeout p s o t).timer.handleReleased = true ∧
      (withTimeout p s o t).timer.handlerRuns = 0) ∧
    (t < s →
      (withTimeout p s o t).composite = .fulfilled TIMEOUT_SENTINEL ∧
      (withTimeout p s o t).inner = p.cancel ∧
      (p.state = .pending →
        (withTimeout p s o t).inner.state = .rejected .timerCancellation)) := by
  constructor
  · intro hlt
    have hle : s ≤ t := le_of_lt hlt
    refine ⟨?_, ?_, ?_, ?_, ?_⟩ <;>
      simp [withTimeout, hle, Timer.create, Timer.cancel]
  · intro hgt
    have hnle : ¬ s ≤ t := not_le_of_lt hgt
    refine ⟨?_, ?_, ?_⟩
    · simp [withTimeout, hnle]
    · simp [withTimeout, hnle]
    · intro hp
      simp [withTimeout, hnle, CancellablePromise.state_cancel_of_pending _ hp]

/-- Witness for C1: both branches of the race at concrete times. -/
theorem withTimeout_race_spec_witness :
    ((withTimeout CancellablePromise.fresh 1 (.fulfilled (.num 7)) 5).composite
        = outcomeState (.fulfilled (.num 7)) ∧
      (withTimeout CancellablePromise.fresh 1 (.fulfilled (.num 7)) 5).inner
        = CancellablePromise.fresh.settle (.fulfilled (.num 7)) ∧
      (withTimeout CancellablePromise.fresh 1 (.fulfilled (.num 7)) 5).timer.task
        = .cancelled ∧
      (withTimeout CancellablePromise.fresh 1 (.fulfilled (.num 7)) 5).timer.handleReleased
        = true ∧
      (withTimeout CancellablePromise.fresh 1 (.fulfilled (.num 7)) 5).timer.handlerRuns
        = 0) ∧
    ((withTimeout CancellablePromise.fresh 9 (.fulfilled (.num 7)) 5).composite
        = .fulfilled TIMEOUT_SENTINEL ∧
      (withTimeout CancellablePromise.fresh 9 (.fulfilled (.num 7)) 5).inner
        = CancellablePromise.fresh.cancel ∧
      (withTimeout CancellablePromise.fresh 9 (.fulfilled (.num 7)) 5).inner.state
        = .rejected .timerCancellation) :=
  ⟨(withTimeout_race_spec CancellablePromise.fresh 1 5 (.fulfilled (.num 7))).1
      (by decide),
    ⟨((withTimeout_race_spec CancellablePromise.fresh 9 5 (.fulfilled (.num 7))).2
        (by decide)).1,
      ((withTimeout_race_spec CancellablePromise.fresh 9 5 (.fulfilled (.num 7))).2
        (by decide)).2.1,
      ((withTimeout_race_spec CancellablePromise.fresh 9 5 (.fulfilled (.num 7))).2
        (by decide)).2.2 rfl⟩⟩

/-- C10: both sentinels are in-band string literals — "TIMEOUT" for
`withTimeout` and "STOP" for `animate` — and consequently a caller of
`withTimeout` cannot distinguish an inner task that legitimately fulfills
with the string "TIMEOUT" from an actual timeout: the composite observable
state is identical in the two scenarios. -/
theorem inband_sentinel_collision :
    TIMEOUT_SENTINEL = JSVal.str "TIMEOUT" ∧
    STOP_SENTINEL = JSVal.str "STOP" ∧
    (withTimeout CancellablePromise.fresh 1
        (.fulfilled (.str "TIMEOUT")) 100).composite
      = (withTimeout CancellablePromise.fresh 200
        (.fulfilled (.num 7)) 100).composite := by
  refine ⟨rfl, rfl, ?_⟩
  simp [withTimeout, outcomeState, TIMEOUT_SENTINEL]

/-- The minimal epsilon added by the animation loop when the clock stalls:
times are in seconds with millisecond precision, so the minimal increment
is one millisecond. -/
def animEpsilon : ℚ := 1 / 1000

/-- Modelled from the spec: the per-frame `time` value of `animate`.  Given
the previous frame value `prev` and the recomputed raw value
`(now - start)` in seconds, the loop passes the raw value, unless it would
be less than or equal to `prev`, in which case `prev` plus the minimal
epsilon is passed instead. -/
def animStep (prev raw : ℚ) : ℚ :=
  if raw ≤ prev then prev + animEpsilon else raw

/-- Modelled from the spec: the sequence of `time` values one animation
loop passes to its callback, given the loop start timestamp and the list of
millisecond clock readings observed at each frame, threading the previous
frame value (`none` before the first frame). -/
def animTimesFrom (start : ℚ) (prev : Option ℚ) : List ℚ → List ℚ
  | [] => []
  | now :: rest =>
      let raw := (now - start) / 1000
      let t :=
        match prev with
        | none => raw
        | some p => animStep p raw
      t :: animTimesFrom start (some t) rest

/-- The full time sequence of one animation loop instance. -/
def animTimes (start : ℚ) (clocks : List ℚ) : List ℚ :=
  animTimesFrom start none clocks

theorem animStep_gt (p raw : ℚ) : p < animStep p raw := by
  unfold animStep
  by_cases h : raw ≤ p
  · simp only [h, if_true]
    have : (0 : ℚ) < animEpsilon := by norm_num [animEpsilon]
    linarith
  · simp only [h, if_false]
    exact lt_of_not_le h

theorem animTimesFrom_monotone (start : ℚ) (clocks : List ℚ) :
    ∀ p : ℚ, List.Chain' (fun a b => a < b)
        (animTimesFrom start (some p) clocks) ∧
      ∀ x ∈ (animTimesFrom start (some p) clocks).head?, p < x := by
  induction clocks with
  | nil => intro p; simp [animTimesFrom]
  | cons now rest ih =>
      intro p
      have h := ih (animStep p ((now - start) / 1000))
      constructor
      · rw [animTimesFrom, List.chain'_cons']
        exact ⟨h.2, h.1⟩
      · intro x hx
        simp only [animTimesFrom, List.head?_cons, Option.mem_def,
          Option.some.injEq] at hx
        rw [← hx]
        exact animStep_gt p _

/-- C6: the `time` values one `animate` loop passes across consecutive
invocations are strictly increasing — in particular they never decrease —
for every start timestamp and every sequence of clock readings, however
coarse or stalled the underlying clock is. -/
theorem animate_time_monotone (start : ℚ) (clocks : List ℚ) :
    List.Chain' (fun a b => a < b) (animTimes start clocks) := by
  cases clocks with
  | nil => simp [animTimes, animTimesFrom]
  | cons now rest =>
      rw [animTimes, animTimesFrom, List.chain'_cons']
      exact ⟨(animTimesFrom_monotone start rest _).2,
        (animTimesFrom_monotone start rest _).1⟩

/-- Modelled from the spec: the inbound side of one worker-channel
endpoint.  `queue` holds delivered-but-unconsumed messages in arrival
order; `waiters` holds the ids of pending `recv()` tasks in registration
order; `resolved` logs, in delivery order, which waiter received which
message; `cancelledWaiters` lists the `recv()` tasks settled as cancelled
by termination; `oncloseFires` counts invocations of the `onclose`
callback. -/
structure Endpoint where
  queue : List JSVal
  waiters : List Nat
  resolved : List (Nat × JSVal)
  cancelledWaiters : List Nat
  closed : Bool
  oncloseFires : Nat
  deriving Repr, DecidableEq

/-- Message-plane operations observed at one endpoint: arrival of a
message sent from the other endpoint, or registration of a `recv()`
caller. -/
inductive ChanOp where
  | send (m : JSVal)
  | recv (w : Nat)
  deriving Repr, DecidableEq

namespace Endpoint

/-- A fresh, open endpoint with no traffic. -/
def empty : Endpoint := ⟨[], [], [], [], false, 0⟩

/-- Modelled from the spec: processing one operation.  An arriving message
is handed to the earliest-registered waiting `recv()` if one exists,
otherwise queued; a new `recv()` consumes the earliest queued message if
one exists, otherwise joins the waiter list.  A closed endpoint drops
both. -/
def applyOp (e : Endpoint) : ChanOp → Endpoint
  | .send m =>
      if e.closed then e
      else
        match e.waiters with
        | w :: ws => { e with waiters := ws, resolved := e.resolved ++ [(w, m)] }
        | [] => { e with queue := e.queue ++ [m] }
  | .recv w =>
      if e.closed then e
      else
        match e.queue with
        | m :: q => { e with queue := q, resolved := e.resolved ++ [(w, m)] }
        | [] => { e with waiters := e.waiters ++ [w] }

/-- Process a whole sequence of operations, in order. -/
def runOps (e : Endpoint) (ops : List ChanOp) : Endpoint :=
  ops.foldl applyOp e

/-- The delivery invariant: queued messages and waiting receivers never
coexist. -/
def Consistent (e : Endpoint) : Prop := e.queue = [] ∨ e.waiters = []

end Endpoint

/-- The messages carried by the `send` operations of a trace, in order. -/
def sentOf : List ChanOp → List JSVal
  | [] => []
  | .send m :: ops => m :: sentOf ops
  | .recv _ :: ops => sentOf ops

/-- The waiter ids of the `recv` operations of a trace, in order. -/
def regsOf : List ChanOp → List Nat
  | [] => []
  | .send _ :: ops => regsOf ops
  | .recv w :: ops => w :: regsOf ops

theorem applyOp_step (e : Endpoint) (op : ChanOp) (hc : e.closed = false)
    (hcon : e.Consistent) :
    (e.applyOp op).closed = false ∧ (e.applyOp op).Consistent ∧
    (e.applyOp op).resolved.map Prod.snd ++ (e.applyOp op).queue
      = e.resolved.map Prod.snd ++ (e.queue ++ sentOf [op]) ∧
    (e.applyOp op).resolved.map Prod.fst ++ (e.applyOp op).waiters
      = e.resolved.map Prod.fst ++ (e.waiters ++ regsOf [op]) := by
  cases op with
  | send m =>
      cases hw : e.waiters with
      | cons w ws =>
          have hq : e.queue = [] := by
            rcases hcon with h | h
            · exact h
            · rw [hw] at h; cases h
          refine ⟨?_, ?_, ?_, ?_⟩ <;>
            simp [Endpoint.applyOp, Endpoint.Consistent, hc, hw, hq, sentOf, regsOf]
      | nil =>
          refine ⟨?_, ?_, ?_, ?_⟩ <;>
            simp [Endpoint.applyOp, Endpoint.Consistent, hc, hw, sentOf, regsOf]
  | recv w =>
      cases hq : e.queue with
      | cons m q =>
          have hw : e.waiters = [] := by
            rcases hcon with h | h
            · rw [hq] at h; cases h
            · exact h
          refine ⟨?_, ?_, ?_, ?_⟩ <;>
            simp [Endpoint.applyOp, Endpoint.Consistent, hc, hq, hw, sentOf, regsOf]
      | nil =>
          refine ⟨?_, ?_, ?_, ?_⟩ <;>
            simp [Endpoint.applyOp, Endpoint.Consistent, hc, hq, sentOf, regsOf]

theorem runOps_spec (ops : List ChanOp) :
    ∀ e : Endpoint, e.closed = false → e.Consistent →
      (e.runOps ops).closed = false ∧ (e.runOps ops).Consistent ∧
      (e.runOps ops).resolved.map Prod.snd ++ (e.runOps ops).queue
        = e.resolved.map Prod.snd ++ (e.queue ++ sentOf ops) ∧
      (e.runOps ops).resolved.map Prod.fst ++ (e.runOps ops).waiters
        = e.resolved.map Prod.fst ++ (e.waiters ++ regsOf ops) := by
  induction ops with
  | nil => intro e hc hcon; simp [Endpoint.runOps, sentOf, regsOf, hc, hcon]
  | cons op ops ih =>
      intro e hc hcon
      obtain ⟨hc1, hcon1, hsnd1, hfst1⟩ := applyOp_step e op hc hcon
      obtain ⟨hc2, hcon2, hsnd2, hfst2⟩ := ih (e.applyOp op) hc1 hcon1
      have hrun : e.runOps (op :: ops) = (e.applyOp op).runOps ops := rfl
      refine ⟨hrun ▸ hc2, hrun ▸ hcon2, ?_, ?_⟩
      · rw [hrun, hsnd2, ← List.append_assoc, ← List.append_assoc, hsnd1]
        cases op <;> simp [sentOf]
      · rw [hrun, hfst2, ← List.append_assoc, ← List.append_assoc, hfst1]
        cases op <;> simp [regsOf]

theorem zip_fst_snd {α β : Type} (l : List (α × β)) :
    (l.map Prod.fst).zip (l.map Prod.snd) = l := by
  induction l with
  | nil => rfl
  | cons a l ih => cases a; simp [ih]

/-- C7: for every trace of message arrivals and `recv()` registrations at
one endpoint in which equally many messages are sent and `recv()` calls are
made, every message is delivered, the delivered messages appear in send
order, and they are paired with the `recv()` callers in registration order:
the delivery log equals the registration list zipped with the send list, so
a `recv()` registered earlier receives an earlier message than any
later-registered `recv()`. -/
theorem channel_fifo_order (ops : List ChanOp)
    (hlen : (sentOf ops).length = (regsOf ops).length) :
    (Endpoint.empty.runOps ops).resolved = (regsOf ops).zip (sentOf ops) := by
  obtain ⟨-, hcon, hsnd0, hfst0⟩ :=
    runOps_spec ops Endpoint.empty rfl (Or.inl rfl)
  have hsnd : (Endpoint.empty.runOps ops).resolved.map Prod.snd
      ++ (Endpoint.empty.runOps ops).queue = sentOf ops := by
    rw [hsnd0]; rfl
  have hfst : (Endpoint.empty.runOps ops).resolved.map Prod.fst
      ++ (Endpoint.empty.runOps ops).waiters = regsOf ops := by
    rw [hfst0]; rfl
  clear hsnd0 hfst0
  set r := Endpoint.empty.runOps ops with hr
  have hlq : (r.resolved.map Prod.snd).length + r.queue.length
      = (sentOf ops).length := by
    rw [← List.length_append, hsnd]
  have hlw : (r.resolved.map Prod.fst).length + r.waiters.length
      = (regsOf ops).length := by
    rw [← List.length_append, hfst]
  have hqw : r.queue.length = r.waiters.length := by
    have h1 : (r.resolved.map Prod.snd).length = r.resolved.length :=
      List.length_map _ _
    have h2 : (r.resolved.map Prod.fst).length = r.resolved.length :=
      List.length_map _ _
    omega
  have hq : r.queue = [] ∧ r.waiters = [] := by
    rcases hcon with h | h
    · refine ⟨h, ?_⟩
      rw [h] at hqw
      exact List.eq_nil_of_length_eq_zero (by simpa using hqw.symm)
    · refine ⟨?_, h⟩
      rw [h] at hqw
      exact List.eq_nil_of_length_eq_zero (by simpa using hqw)
  rw [hq.1, List.append_nil] at hsnd
  rw [hq.2, List.append_nil] at hfst
  rw [← hsnd, ← hfst, zip_fst_snd]

/-- Witness for C7: one message arrives before any receiver, the second
finds a receiver already waiting; both are delivered in order to the
receivers in registration order. -/
theorem channel_fifo_order_witness :
    (Endpoint.empty.runOps
        [ChanOp.send (.num 1), ChanOp.recv 10, ChanOp.recv 11,
          ChanOp.send (.num 2)]).resolved
      = (regsOf [ChanOp.send (.num 1), ChanOp.recv 10, ChanOp.recv 11,
          ChanOp.send (.num 2)]).zip
        (sentOf [ChanOp.send (.num 1), ChanOp.recv 10, ChanOp.recv 11,
          ChanOp.send (.num 2)]) :=
  channel_fifo_order
    [ChanOp.send (.num 1), ChanOp.recv 10, ChanOp.recv 11,
      ChanOp.send (.num 2)] (by decide)

/-- Modelled from the spec: a worker channel is the pair of its host-side
and worker-side endpoints. -/
structure Channel where
  host : Endpoint
  worker : Endpoint
  deriving Repr, DecidableEq

/-- Modelled from the spec: closing one endpoint.  On an open endpoint it
sets the closed flag, fires `onclose` once and settles every pending
`recv()` waiter as cancelled; on an already closed endpoint it does
nothing. -/
def Endpoint.close (e : Endpoint) : Endpoint :=
  if e.closed then e
  else
    { e with
      closed := true
      oncloseFires := e.oncloseFires + 1
      cancelledWaiters := e.cancelledWaiters ++ e.waiters
      waiters := [] }

/-- Modelled from the spec: `terminate()` forcefully shuts down the
isolated context, closing both endpoints. -/
def Channel.terminate (c : Channel) : Channel :=
  { host := c.host.close, worker := c.worker.close }

theorem Endpoint.close_close (e : Endpoint) : e.close.close = e.close := by
  unfold Endpoint.close
  by_cases h : e.closed <;> simp [h]

theorem Endpoint.close_of_open (e : Endpoint) (h : e.closed = false) :
    e.close.oncloseFires = e.oncloseFires + 1 ∧
    e.close.waiters = [] ∧
    e.close.cancelledWaiters = e.cancelledWaiters ++ e.waiters := by
  simp [Endpoint.close, h]

/-- C8: `terminate()` on a worker channel is idempotent — a second (or any
further) call leaves the channel in exactly the state of the first call —
the `onclose` callback fires exactly once on each of the two endpoints,
and every `recv()` task pending on either side at termination settles as
cancelled. -/
theorem terminate_idempotent_onclose_once (c : Channel)
    (hh : c.host.closed = false) (hw : c.worker.closed = false) :
    c.terminate.terminate = c.terminate ∧
    c.terminate.host.oncloseFires = c.host.oncloseFires + 1 ∧
    c.terminate.worker.oncloseFires = c.worker.oncloseFires + 1 ∧
    c.terminate.terminate.host.oncloseFires = c.host.oncloseFires + 1 ∧
    c.terminate.terminate.worker.oncloseFires = c.worker.oncloseFires + 1 ∧
    c.terminate.host.waiters = [] ∧
    c.terminate.host.cancelledWaiters
      = c.host.cancelledWaiters ++ c.host.waiters ∧
    c.terminate.worker.waiters = [] ∧
    c.terminate.worker.cancelledWaiters
      = c.worker.cancelledWaiters ++ c.worker.waiters := by
  have hid : c.terminate.terminate = c.terminate := by
    simp [Channel.terminate, Endpoint.close_close]
  obtain ⟨hh1, hh2, hh3⟩ := c.host.close_of_open hh
  obtain ⟨hw1, hw2, hw3⟩ := c.worker.close_of_open hw
  refine ⟨hid, hh1, hw1, ?_, ?_, hh2, hh3, hw2, hw3⟩
  · rw [hid]; exact hh1
  · rw [hid]; exact hw1

/-- A sample open channel with pending receivers on both sides. -/
def sampleChannel : Channel :=
  ⟨⟨[], [5], [], [], false, 0⟩, ⟨[], [9], [], [], false, 0⟩⟩

/-- Witness for C8 at the sample channel. -/
theorem terminate_idempotent_onclose_once_witness :
    sampleChannel.terminate.terminate = sampleChannel.terminate ∧
    sampleChannel.terminate.host.oncloseFires
      = sampleChannel.host.oncloseFires + 1 ∧
    sampleChannel.terminate.worker.oncloseFires
      = sampleChannel.worker.oncloseFires + 1 ∧
    sampleChannel.terminate.terminate.host.oncloseFires
      = sampleChannel.host.oncloseFires + 1 ∧
    sampleChannel.terminate.terminate.worker.oncloseFires
      = sampleChannel.worker.oncloseFires + 1 ∧
    sampleChannel.terminate.host.waiters = [] ∧
    sampleChannel.terminate.host.cancelledWaiters
      = sampleChannel.host.cancelledWaiters ++ sampleChannel.host.waiters ∧
    sampleChannel.terminate.worker.waiters = [] ∧
    sampleChannel.terminate.worker.cancelledWaiters
      = sampleChannel.worker.cancelledWaiters ++ sampleChannel.worker.waiters :=
  terminate_idempotent_onclose_once sampleChannel rfl rfl

/-- Embedding of the interface `ScripterCreateWorkerOptions` declared in
scripter-env.d.ts: it declares exactly one optional boolean field, named
`DOM` ("If true, the worker will actually run in an iframe with a full
DOM"). -/
structure ScripterCreateWorkerOptions where
  DOM : Option Bool
  deriving Repr, DecidableEq

/-- The fields recognized by the declared `ScripterCreateWorkerOptions`
interface, as (name, type) pairs, embedded from scripter-env.d.ts. -/
def scripterCreateWorkerOptionFields : List (String × String) :=
  [("DOM", "boolean")]

/-- Modelled from the spec: which isolated context `createWorker` uses —
a plain web worker, or the heavier iframe exposing a full page/document
object surface when the boolean option is set. -/
inductive WorkerContext where
  | webWorker
  | iframeDOM
  deriving Repr, DecidableEq

/-- Modelled from the spec: the context selected by `createWorker` for a
given (possibly absent) options object. -/
def workerContextFor (opt : Option ScripterCreateWorkerOptions) : WorkerContext :=
  match opt with
  | some o => if o.DOM.getD false then .iframeDOM else .webWorker
  | none => .webWorker

/-- C9, as stated, is false: the worker-channel creation options interface
declared in scripter-env.d.ts recognizes no field named `fullContext`. -/
theorem createWorkerOptions_fullContext_absent :
    ("fullContext", "boolean") ∉ scripterCreateWorkerOptionFields := by
  decide

/-- C9 (amended): the worker-channel creation function accepts a
configuration object recognizing at minimum a boolean field named `DOM`,
which when true enables the heavier isolated context (an iframe) exposing
a full page/document-object surface, and which defaults to the lighter
web-worker context when absent. -/
theorem createWorkerOptions_DOM_recognized :
    ("DOM", "boolean") ∈ scripterCreateWorkerOptionFields ∧
    workerContextFor (some ⟨some true⟩) = .iframeDOM ∧
    workerContextFor (some ⟨some false⟩) = .webWorker ∧
    workerContextFor none = .webWorker := by
  refine ⟨by decide, rfl, rfl, rfl⟩

end Scripter
